import Mathlib

/-!
Verification of the GCS MCP server adapter (`src/server.py`).

The repository is a thin adapter exposing Google Cloud Storage operations as
MCP tools.  The storage provider itself (the `google-cloud-storage` client) is
an external collaborator; we embed it as an explicit state machine over a list
of buckets, each holding a list of object versions, with the provider
semantics the adapter relies on (prefix listing, versioned listing, live
versions, not-found / conflict failures, last-write-wins uploads).  Timestamps
(`updated`, `created`) and md5 hashes are provider-assigned metadata that no
claim depends on; they are omitted from the normalized records.  Network and
auth failures are modelled only where a claim is about them: the forced
bucket-deletion loop takes an optional fault-injection index (the step at
which the provider call fails), `none` meaning a fault-free run.

Adapter functions are translated one-to-one from `server.py`; each is a
function of the provider state, returning `Except GCSError` results and the
successor state where the operation mutates the provider.
-/

/-- A single stored object generation inside a bucket.  `live` is true for the
current generation of a name; overwritten or deleted generations in a
versioning-enabled bucket are kept with `live := false` (noncurrent), while in
a non-versioned bucket they are removed outright. -/
structure ObjVersion where
  name : String
  generation : Nat
  content : String
  contentType : String
  live : Bool
deriving Repr, DecidableEq

/-- A provider-side bucket: identity, placement metadata, whether object
versioning is enabled, and the stored object versions. -/
structure Bucket where
  name : String
  location : String
  storageClass : String
  versioning : Bool
  objects : List ObjVersion
deriving Repr, DecidableEq

/-- Provider state: the buckets of the credentialed project, in listing
order. -/
abbrev GCSState := List Bucket

/-- Failures surfaced by the provider, passed through unchanged by the
adapter (spec §7 taxonomy): not-found, conflict (already-exists /
precondition-failed), network failure, and the `StopIteration` raised by
`next()` on an empty bucket iterator at module initialization. -/
inductive GCSError where
  | notFound (what : String)
  | conflict (what : String)
  | network (what : String)
  | stopIteration
deriving Repr, DecidableEq

/-- `client.bucket(name)` resolution against live provider state: the first
bucket with the given name, if any. -/
def findBucket (s : GCSState) (bucketName : String) : Option Bucket :=
  s.find? (fun b => decide (b.name = bucketName))

/-- Write back a mutated bucket into the provider state (in place, keeping
listing order). -/
def updateBucket (s : GCSState) (bucketName : String) (nb : Bucket) : GCSState :=
  s.map (fun b => if b.name = bucketName then nb else b)

/-- Remove a bucket from the provider state (`bucket.delete()` succeeding). -/
def removeBucket (s : GCSState) (bucketName : String) : GCSState :=
  s.filter (fun b => decide (¬ b.name = bucketName))

/-- The live (current) generation stored under `path`, if any. -/
def Bucket.liveVersion (b : Bucket) (path : String) : Option ObjVersion :=
  b.objects.find? (fun v => decide (v.name = path) && v.live)

/-- Largest generation number ever assigned to `path` in this bucket (0 if
none): provider generations are strictly increasing per object name. -/
def Bucket.maxGen (b : Bucket) (path : String) : Nat :=
  (b.objects.filter (fun v => decide (v.name = path))).foldr
    (fun v acc => max v.generation acc) 0

/-- Provider semantics of `blob.upload_from_string` / the data write of
`copy_blob`: assign the next generation for `path`; the previous live
generation becomes noncurrent when versioning is enabled and is discarded
otherwise; the new generation is appended live.  Succeeds regardless of
whether an object already exists at `path` (last-write-wins, no conflict
detection). -/
def Bucket.uploadVersion (b : Bucket) (path content contentType : String) : Bucket :=
  { b with objects :=
      (if b.versioning then
        b.objects.map (fun v =>
          if decide (v.name = path) && v.live then { v with live := false } else v)
      else
        b.objects.filter (fun v => !(decide (v.name = path) && v.live)))
      ++ [⟨path, b.maxGen path + 1, content, contentType, true⟩] }

/-- Provider semantics of `blob.delete()` (no generation pinned): deletes the
live generation of `path`, raising not-found when there is none.  With
versioning enabled the live generation becomes noncurrent; otherwise it is
removed. -/
def Bucket.deleteLive (b : Bucket) (path : String) : Except GCSError Bucket :=
  match b.liveVersion path with
  | none => .error (.notFound path)
  | some _ =>
    .ok { b with objects :=
      if b.versioning then
        b.objects.map (fun v =>
          if decide (v.name = path) && v.live then { v with live := false } else v)
      else
        b.objects.filter (fun v => !(decide (v.name = path) && v.live)) }

/-- Provider semantics of `bucket.list_blobs(prefix=..., versions=...)` on an
existing bucket: all versions whose name starts with the prefix when
`versions=True`, only live ones otherwise.  Prefix matching is on the
character sequence of the names. -/
def Bucket.listBlobs (b : Bucket) (pre : String) (versions : Bool) : List ObjVersion :=
  b.objects.filter (fun v => pre.data.isPrefixOf v.name.data && (versions || v.live))

namespace GCSClient

/-- `GCSClient.list_buckets`: the project's buckets in listing order. -/
def list_buckets (s : GCSState) : List Bucket := s

/-- `GCSClient.list_object_versions` (server.py lines 49–51):
`bucket.list_blobs(prefix=object_path, versions=True)`.  Iterating the
listing of a nonexistent bucket raises the provider's not-found failure
(spec §4 lists "bucket not found" as the failure condition of the same
listing call in `get_bucket_objects`, and §7 passes not-found through). -/
def list_object_versions (s : GCSState) (bucketName objectPath : String) :
    Except GCSError (List ObjVersion) :=
  match findBucket s bucketName with
  | none => .error (.notFound bucketName)
  | some b => .ok (b.listBlobs objectPath true)

/-- `GCSClient.upload_object`: resolve the bucket handle, then
`blob.upload_from_string(content, content_type)`.  The write raises
not-found when the bucket does not exist; otherwise it overwrites
unconditionally. -/
def upload_object (s : GCSState) (bucketName objectPath content contentType : String) :
    Except GCSError (GCSState × ObjVersion) :=
  match findBucket s bucketName with
  | none => .error (.notFound bucketName)
  | some b =>
    let b2 := b.uploadVersion objectPath content contentType
    .ok (updateBucket s bucketName b2, ⟨objectPath, b.maxGen objectPath + 1, content, contentType, true⟩)

/-- `GCSClient.read_object` + `blob.download_as_text()`: the content of the
live generation at `objectPath`, not-found when the bucket or the object is
missing. -/
def download_as_text (s : GCSState) (bucketName objectPath : String) :
    Except GCSError String :=
  match findBucket s bucketName with
  | none => .error (.notFound bucketName)
  | some b =>
    match b.liveVersion objectPath with
    | none => .error (.notFound objectPath)
    | some v => .ok v.content

/-- `GCSClient.delete_object`: `blob.delete()` on the named bucket,
propagating not-found for a missing bucket or object. -/
def delete_object (s : GCSState) (bucketName objectPath : String) :
    Except GCSError GCSState :=
  match findBucket s bucketName with
  | none => .error (.notFound bucketName)
  | some b =>
    match b.deleteLive objectPath with
    | .error e => .error e
    | .ok b2 => .ok (updateBucket s bucketName b2)

/-- `GCSClient.copy_object` (server.py lines 44–47): resolve the live source
generation, then `destination_bucket.copy_blob(...)` writes its bytes and
content type under the destination name (a fresh generation there).  The
source is only read. -/
def copy_object (s : GCSState)
    (sourceBucket sourceObject destinationBucket destinationObject : String) :
    Except GCSError (GCSState × ObjVersion) :=
  match findBucket s sourceBucket with
  | none => .error (.notFound sourceBucket)
  | some sb =>
    match sb.liveVersion sourceObject with
    | none => .error (.notFound sourceObject)
    | some src =>
      match findBucket s destinationBucket with
      | none => .error (.notFound destinationBucket)
      | some db =>
        let db2 := db.uploadVersion destinationObject src.content src.contentType
        .ok (updateBucket s destinationBucket db2,
             ⟨destinationObject, db.maxGen destinationObject + 1, src.content, src.contentType, true⟩)

end GCSClient

/-- Normalized bucket view returned by `list_buckets` / `create_bucket`
(server.py builds dicts with `name`, `created`, `location`, `storage_class`;
the provider timestamp `created` carries no claim and is omitted). -/
structure BucketRecord where
  name : String
  location : String
  storageClass : String
deriving Repr, DecidableEq

/-- Normalized object view returned by `upload_object` / `copy_object`
(server.py dicts with `name`, `size`, `updated`, `content_type`, `md5_hash`;
timestamp and hash are provider metadata and omitted). -/
structure ObjectRecord where
  name : String
  size : Nat
  contentType : String
deriving Repr, DecidableEq

/-- Normalized per-generation view returned by `list_object_versions`
(server.py dicts with `name`, `generation`, `updated`, `size`, `md5_hash`). -/
structure VersionRecord where
  name : String
  generation : Nat
  size : Nat
deriving Repr, DecidableEq

/-- Module initialization (server.py lines 70–77): construct the client and
verify access with `next(gcs.list_buckets())`.  `next()` on the iterator
raises `StopIteration` when the project has zero buckets; the `except` block
re-raises every failure, so initialization succeeds exactly when at least one
bucket is listed. -/
def moduleInit (s : GCSState) : Except GCSError Unit :=
  match GCSClient.list_buckets s with
  | [] => .error .stopIteration
  | _ :: _ => .ok ()

/-- Tool `list_buckets` (server.py lines 80–89): one BucketRecord per
provider bucket, in listing order. -/
def list_buckets (s : GCSState) : List BucketRecord :=
  (GCSClient.list_buckets s).map (fun b => ⟨b.name, b.location, b.storageClass⟩)

/-- Tool `create_bucket` (server.py lines 91–110): take a bucket handle, set
`location` and `storage_class`, call `bucket.create()` — which raises a
conflict when the name already exists — and return the normalized record.  A
fresh provider bucket has versioning disabled and no objects. -/
def create_bucket (s : GCSState) (bucketName location storageClass : String) :
    Except GCSError (GCSState × BucketRecord) :=
  match findBucket s bucketName with
  | some _ => .error (.conflict bucketName)
  | none =>
    let b : Bucket := ⟨bucketName, location, storageClass, false, []⟩
    .ok (s ++ [b], ⟨bucketName, location, storageClass⟩)

/-- The `for blob in blobs: blob.delete()` loop of `delete_bucket(force=True)`
(server.py lines 124–126), run over the snapshot of listed live blobs.
`failAt = some k` injects a provider network failure at the k-th delete call
(0-based); `none` is a fault-free run.  As in the source, a raised failure
propagates immediately and the deletions already performed stand — there is
no rollback. -/
def runDeleteLoop : Bucket → List ObjVersion → Nat → Option Nat → Bucket × Option GCSError
  | b, [], _, _ => (b, none)
  | b, v :: rest, i, failAt =>
    if failAt = some i then (b, some (.network v.name))
    else
      match b.deleteLive v.name with
      | .error e => (b, some e)
      | .ok b2 => runDeleteLoop b2 rest (i + 1) failAt

/-- Tool `delete_bucket` (server.py lines 112–129): when `force` is set,
enumerate the bucket's (live) blobs and delete each, then call
`bucket.delete()` — which the provider rejects with a conflict
(precondition-failed) while any object version remains — and return `True`.
The returned state is the provider state after the call, including the
partial deletions of an interrupted forced run. -/
def delete_bucket (s : GCSState) (bucketName : String) (force : Bool)
    (failAt : Option Nat) : GCSState × Except GCSError Bool :=
  match findBucket s bucketName with
  | none => (s, .error (.notFound bucketName))
  | some b =>
    if force then
      match runDeleteLoop b (b.listBlobs "" false) 0 failAt with
      | (b2, some e) => (updateBucket s bucketName b2, .error e)
      | (b2, none) =>
        if b2.objects.isEmpty then (removeBucket s bucketName, .ok true)
        else (updateBucket s bucketName b2, .error (.conflict bucketName))
    else
      if b.objects.isEmpty then (removeBucket s bucketName, .ok true)
      else (s, .error (.conflict bucketName))

/-- Tool `read_object` (server.py lines 155–165): delegate to the client and
return the object content decoded as text. -/
def read_object (s : GCSState) (bucketName objectPath : String) :
    Except GCSError String :=
  GCSClient.download_as_text s bucketName objectPath

/-- Tool `upload_object` (server.py lines 167–186): delegate to the client
and normalize the returned blob. -/
def upload_object (s : GCSState) (bucketName objectPath content contentType : String) :
    Except GCSError (GCSState × ObjectRecord) :=
  match GCSClient.upload_object s bucketName objectPath content contentType with
  | .error e => .error e
  | .ok (s2, blob) => .ok (s2, ⟨blob.name, blob.content.utf8ByteSize, blob.contentType⟩)

/-- Tool `delete_object` (server.py lines 188–198): delegate to the client
and return `True`; a provider failure propagates unchanged. -/
def delete_object (s : GCSState) (bucketName objectPath : String) :
    Except GCSError (GCSState × Bool) :=
  match GCSClient.delete_object s bucketName objectPath with
  | .error e => .error e
  | .ok s2 => .ok (s2, true)

/-- Tool `copy_object` (server.py lines 200–224): delegate to the client and
normalize the destination blob. -/
def copy_object (s : GCSState)
    (sourceBucket sourceObject destinationBucket destinationObject : String) :
    Except GCSError (GCSState × ObjectRecord) :=
  match GCSClient.copy_object s sourceBucket sourceObject destinationBucket destinationObject with
  | .error e => .error e
  | .ok (s2, blob) => .ok (s2, ⟨blob.name, blob.content.utf8ByteSize, blob.contentType⟩)

/-- Tool `list_object_versions` (server.py lines 226–243): list blobs with
`prefix=object_path, versions=True`, then keep only records whose `name`
equals `object_path` exactly (`if blob.name == object_path`). -/
def list_object_versions (s : GCSState) (bucketName objectPath : String) :
    Except GCSError (List VersionRecord) :=
  match GCSClient.list_object_versions s bucketName objectPath with
  | .error e => .error e
  | .ok blobs =>
    .ok ((blobs.filter (fun v => decide (v.name = objectPath))).map
      (fun v => ⟨v.name, v.generation, v.content.utf8ByteSize⟩))

/-!
### Helper lemmas

Facts about bucket lookup/update and about how an upload changes the live
version map, shared by the claim proofs below.
-/

theorem findBucket_name {s : GCSState} {bn : String} {b : Bucket}
    (h : findBucket s bn = some b) : b.name = bn := by
  have hp := List.find?_some h
  simpa using hp

theorem uploadVersion_name (b : Bucket) (p c t : String) :
    (b.uploadVersion p c t).name = b.name := rfl

theorem findBucket_updateBucket_self {s : GCSState} {bn : String} {b nb : Bucket}
    (h : findBucket s bn = some b) (hn : nb.name = bn) :
    findBucket (updateBucket s bn nb) bn = some nb := by
  have hb : b.name = bn := findBucket_name h
  unfold findBucket updateBucket
  rw [List.find?_map]
  have hfun : ((fun x : Bucket => decide (x.name = bn)) ∘
        fun x : Bucket => if x.name = bn then nb else x)
      = fun x : Bucket => decide (x.name = bn) := by
    funext x
    by_cases hx : x.name = bn <;> simp [Function.comp, hx, hn]
  rw [hfun]
  unfold findBucket at h
  rw [h]
  simp [hb]

theorem findBucket_updateBucket_ne {s : GCSState} {bn bn' : String} {nb : Bucket}
    (hn : nb.name = bn) (hne : bn' ≠ bn) :
    findBucket (updateBucket s bn nb) bn' = findBucket s bn' := by
  unfold findBucket updateBucket
  rw [List.find?_map]
  have hfun : ((fun x : Bucket => decide (x.name = bn')) ∘
        fun x : Bucket => if x.name = bn then nb else x)
      = fun x : Bucket => decide (x.name = bn') := by
    funext x
    by_cases hx : x.name = bn <;> simp [Function.comp, hx, hn]
  rw [hfun]
  cases hf : s.find? (fun x : Bucket => decide (x.name = bn')) with
  | none => simp
  | some x =>
    have hx := List.find?_some hf
    simp only [decide_eq_true_eq] at hx
    simp [hx, hne]

theorem findBucket_removeBucket (s : GCSState) (bn : String) :
    findBucket (removeBucket s bn) bn = none := by
  unfold findBucket removeBucket
  rw [List.find?_filter, List.find?_eq_none]
  intro x hx
  by_cases h : x.name = bn <;> simp [h]

theorem liveVersion_uploadVersion_self (b : Bucket) (p c t : String) :
    (b.uploadVersion p c t).liveVersion p
      = some ⟨p, b.maxGen p + 1, c, t, true⟩ := by
  unfold Bucket.liveVersion Bucket.uploadVersion
  rw [List.find?_append]
  have hnone :
      List.find? (fun v : ObjVersion => decide (v.name = p) && v.live)
        (if b.versioning then
          b.objects.map (fun v =>
            if decide (v.name = p) && v.live then { v with live := false } else v)
        else
          b.objects.filter (fun v => !(decide (v.name = p) && v.live))) = none := by
    rw [List.find?_eq_none]
    intro v hv
    by_cases hb : b.versioning
    · rw [if_pos hb] at hv
      rcases List.mem_map.mp hv with ⟨u, _, rfl⟩
      by_cases hup : (decide (u.name = p) && u.live) = true
      · simp [hup]
      · simp [hup]
    · rw [if_neg hb] at hv
      have := (List.mem_filter.mp hv).2
      simp only [Bool.not_eq_true'] at this
      simp [this]
  rw [hnone]
  simp

theorem liveVersion_uploadVersion_ne (b : Bucket) {p q : String} (c t : String)
    (h : q ≠ p) :
    (b.uploadVersion p c t).liveVersion q = b.liveVersion q := by
  unfold Bucket.liveVersion Bucket.uploadVersion
  rw [List.find?_append]
  have hlast :
      List.find? (fun v : ObjVersion => decide (v.name = q) && v.live)
        [⟨p, b.maxGen p + 1, c, t, true⟩] = none := by
    simp [Ne.symm h]
  rw [hlast, Option.or_none]
  by_cases hb : b.versioning
  · rw [if_pos hb, List.find?_map]
    have hfun : ((fun v : ObjVersion => decide (v.name = q) && v.live) ∘
          fun v : ObjVersion =>
            if decide (v.name = p) && v.live then { v with live := false } else v)
        = fun v : ObjVersion => decide (v.name = q) && v.live := by
      funext v
      by_cases hvp : (decide (v.name = p) && v.live) = true
      · have hvname : v.name = p := by
          simpa using ((Bool.and_eq_true _ _).mp hvp).1
        have hvlive : v.live = true := ((Bool.and_eq_true _ _).mp hvp).2
        simp [Function.comp, hvname, hvlive, Ne.symm h]
      · simp [Function.comp, hvp]
    rw [hfun]
    cases hf : b.objects.find? (fun v : ObjVersion => decide (v.name = q) && v.live) with
    | none => simp
    | some x =>
      have hx := List.find?_some hf
      simp only [Bool.and_eq_true, decide_eq_true_eq] at hx
      simp [hx.1, hx.2, h]
  · rw [if_neg hb, List.find?_filter]
    have hfun : (fun a : ObjVersion =>
          decide ((!(decide (a.name = p) && a.live)) = true ∧
            (decide (a.name = q) && a.live) = true))
        = fun a : ObjVersion => decide (a.name = q) && a.live := by
      funext a
      by_cases haq : a.name = q
      · simp [haq, h]
      · simp [haq]
    rw [hfun]

theorem upload_object_spec {s : GCSState} {bn : String} (p c t : String) {b : Bucket}
    (h : findBucket s bn = some b) :
    upload_object s bn p c t
      = .ok (updateBucket s bn (b.uploadVersion p c t), ⟨p, c.utf8ByteSize, t⟩)
    ∧ read_object (updateBucket s bn (b.uploadVersion p c t)) bn p = .ok c := by
  have hname : (b.uploadVersion p c t).name = bn := by
    rw [uploadVersion_name]; exact findBucket_name h
  constructor
  · simp [upload_object, GCSClient.upload_object, h]
  · simp only [read_object, GCSClient.download_as_text,
      findBucket_updateBucket_self h hname, liveVersion_uploadVersion_self]

/-!
### The claims
-/

/-- C1: every record in a sequence returned by `list_object_versions` has
`name` equal to `object_path` exactly; provider-listed objects that merely
share `object_path` as a prefix are excluded. -/
theorem c1_exact_name_filter (s : GCSState) (bn p : String)
    (res : List VersionRecord) (h : list_object_versions s bn p = .ok res) :
    ∀ r ∈ res, r.name = p := by
  cases hc : GCSClient.list_object_versions s bn p with
  | error e =>
    simp [list_object_versions, hc] at h
  | ok blobs =>
    simp only [list_object_versions, hc, Except.ok.injEq] at h
    subst h
    intro r hr
    rcases List.mem_map.mp hr with ⟨v, hv, rfl⟩
    have := (List.mem_filter.mp hv).2
    simpa using this

/-- C1 witness: with sibling objects `dir/a` and `dir/a2` stored, the one
record returned for path `dir/a` is named `dir/a`. -/
theorem c1_exact_name_filter_witness :
    VersionRecord.name ⟨"dir/a", 1, 2⟩ = "dir/a" :=
  c1_exact_name_filter
    [⟨"b", "US", "STANDARD", false,
      [⟨"dir/a", 1, "xx", "text/plain", true⟩,
       ⟨"dir/a2", 1, "yyy", "text/plain", true⟩]⟩]
    "b" "dir/a" [⟨"dir/a", 1, 2⟩] rfl ⟨"dir/a", 1, 2⟩ (by simp)

/-- C5 counterexample: listing versions against a nonexistent bucket
propagates the provider's not-found failure instead of returning an empty
sequence. -/
theorem c5_bucket_missing_raises :
    list_object_versions ([] : GCSState) "bucket" "path"
      = .error (GCSError.notFound "bucket") := rfl

/-- C5 (amended): when the bucket exists but holds no object named exactly
`object_path`, `list_object_versions` returns the empty sequence without an
error; when the bucket does not exist, the provider's not-found failure
propagates. -/
theorem c5_not_found_behavior (s : GCSState) (bn p : String) :
    (∀ b, findBucket s bn = some b → (∀ v ∈ b.objects, v.name ≠ p) →
      list_object_versions s bn p = .ok [])
    ∧ (findBucket s bn = none →
      list_object_versions s bn p = .error (GCSError.notFound bn)) := by
  constructor
  · intro b hb hnone
    have hfil : List.filter (fun v : ObjVersion => decide (v.name = p))
        (b.listBlobs p true) = [] := by
      rw [List.filter_eq_nil_iff]
      intro v hv
      have hvo : v ∈ b.objects := (List.mem_filter.mp hv).1
      simp [hnone v hvo]
    simp [list_object_versions, GCSClient.list_object_versions, hb, hfil]
  · intro hb
    simp [list_object_versions, GCSClient.list_object_versions, hb]

/-- C5 amended-claim witness: a bucket that only holds the sibling `dir/a2`
yields the empty sequence for `dir/a`, and a missing bucket yields the
provider's not-found failure. -/
theorem c5_not_found_behavior_witness :
    list_object_versions [⟨"b", "US", "STANDARD", false,
        [⟨"dir/a2", 1, "yyy", "text/plain", true⟩]⟩] "b" "dir/a" = .ok []
    ∧ list_object_versions [⟨"b", "US", "STANDARD", false, []⟩] "c" "x"
      = .error (GCSError.notFound "c") :=
  ⟨(c5_not_found_behavior [⟨"b", "US", "STANDARD", false,
      [⟨"dir/a2", 1, "yyy", "text/plain", true⟩]⟩] "b" "dir/a").1
      ⟨"b", "US", "STANDARD", false, [⟨"dir/a2", 1, "yyy", "text/plain", true⟩]⟩
      rfl (by decide),
   (c5_not_found_behavior [⟨"b", "US", "STANDARD", false, []⟩] "c" "x").2 rfl⟩

/-- C7: forced bucket deletion is not atomic.  In the execution where the
provider delete of the second enumerated object fails, the first object is
already gone, the second remains, the bucket still exists, and the failure
propagates with no rollback. -/
theorem c7_force_delete_not_atomic :
    delete_bucket [⟨"bkt", "US", "STANDARD", false,
        [⟨"a", 1, "x", "text/plain", true⟩, ⟨"b", 1, "y", "text/plain", true⟩]⟩]
      "bkt" true (some 1)
    = ([⟨"bkt", "US", "STANDARD", false, [⟨"b", 1, "y", "text/plain", true⟩]⟩],
        .error (GCSError.network "b"))
    ∧ (findBucket [⟨"bkt", "US", "STANDARD", false,
        [⟨"b", 1, "y", "text/plain", true⟩]⟩] "bkt").isSome = true :=
  ⟨rfl, rfl⟩

/-- C9: a successful `create_bucket` is reflected in `list_buckets` by a
record whose name, location and storage class match the arguments. -/
theorem c9_create_then_list (s : GCSState) (n loc sc : String)
    (s2 : GCSState) (rec : BucketRecord)
    (h : create_bucket s n loc sc = .ok (s2, rec)) :
    (⟨n, loc, sc⟩ : BucketRecord) ∈ list_buckets s2 := by
  cases hf : findBucket s n with
  | some b => simp [create_bucket, hf] at h
  | none =>
    simp only [create_bucket, hf, Except.ok.injEq, Prod.mk.injEq] at h
    obtain ⟨h1, _⟩ := h
    subst h1
    simp [list_buckets, GCSClient.list_buckets]

/-- C9 witness: creating bucket `nb` in `EU` with class `NEARLINE` on an
empty project makes it appear in the listing. -/
theorem c9_create_then_list_witness :
    (⟨"nb", "EU", "NEARLINE"⟩ : BucketRecord)
      ∈ list_buckets [⟨"nb", "EU", "NEARLINE", false, []⟩] :=
  c9_create_then_list [] "nb" "EU" "NEARLINE"
    [⟨"nb", "EU", "NEARLINE", false, []⟩] ⟨"nb", "EU", "NEARLINE"⟩ rfl

/-- C10: module initialization probes provider access with `next()` on the
bucket listing, so startup raises (and the server refuses to start) exactly
when the credentialed project lists zero buckets. -/
theorem c10_init_requires_nonempty_listing (s : GCSState) :
    moduleInit s = .error GCSError.stopIteration
      ↔ GCSClient.list_buckets s = [] := by
  cases s <;> simp [moduleInit, GCSClient.list_buckets]

/-- C2: the boolean-returning operations `delete_bucket` and `delete_object`
never produce `false`: every outcome is either a raised failure or the value
`true`, on every execution path (including interrupted forced deletions). -/
theorem c2_bool_ops_never_false (s : GCSState) (bn p : String) (force : Bool)
    (failAt : Option Nat) :
    ((delete_bucket s bn force failAt).2 = .ok true
      ∨ ∃ e, (delete_bucket s bn force failAt).2 = .error e)
    ∧ ((∃ s2, delete_object s bn p = .ok (s2, true))
      ∨ ∃ e, delete_object s bn p = .error e) := by
  constructor
  · cases hf : findBucket s bn with
    | none => exact Or.inr ⟨GCSError.notFound bn, by simp [delete_bucket, hf]⟩
    | some b =>
      cases force with
      | false =>
        by_cases he : b.objects.isEmpty = true
        · exact Or.inl (by simp [delete_bucket, hf, he])
        · exact Or.inr ⟨GCSError.conflict bn, by simp [delete_bucket, hf, he]⟩
      | true =>
        rcases hr : runDeleteLoop b (b.listBlobs "" false) 0 failAt with ⟨b2, oe⟩
        cases oe with
        | some e => exact Or.inr ⟨e, by simp [delete_bucket, hf, hr]⟩
        | none =>
          by_cases he : b2.objects.isEmpty = true
          · exact Or.inl (by simp [delete_bucket, hf, hr, he])
          · exact Or.inr ⟨GCSError.conflict bn, by simp [delete_bucket, hf, hr, he]⟩
  · cases hc : GCSClient.delete_object s bn p with
    | error e => exact Or.inr ⟨e, by simp [delete_object, hc]⟩
    | ok s2 => exact Or.inl ⟨s2, by simp [delete_object, hc]⟩

/-- C3: uploading text content and then reading the same bucket and path
back, with no intervening write, returns exactly the uploaded content. -/
theorem c3_upload_read_roundtrip (s s2 : GCSState) (bn p c : String)
    (rec : ObjectRecord)
    (hup : upload_object s bn p c "text/plain" = .ok (s2, rec)) :
    read_object s2 bn p = .ok c := by
  cases h : findBucket s bn with
  | none =>
    simp [upload_object, GCSClient.upload_object, h] at hup
  | some b =>
    have hspec := upload_object_spec p c "text/plain" h
    rw [hspec.1] at hup
    simp only [Except.ok.injEq, Prod.mk.injEq] at hup
    obtain ⟨h1, _⟩ := hup
    subst h1
    exact hspec.2

/-- C3 witness: uploading `hello` to `b/p` and reading `b/p` back yields
`hello`. -/
theorem c3_upload_read_roundtrip_witness :
    read_object [⟨"b", "US", "STANDARD", false,
      [⟨"p", 1, "hello", "text/plain", true⟩]⟩] "b" "p" = .ok "hello" :=
  c3_upload_read_roundtrip [⟨"b", "US", "STANDARD", false, []⟩]
    [⟨"b", "US", "STANDARD", false, [⟨"p", 1, "hello", "text/plain", true⟩]⟩]
    "b" "p" "hello" ⟨"p", 5, "text/plain"⟩ rfl

/-- C4: without force, deleting a non-empty bucket fails with the provider's
precondition (conflict) failure and mutates nothing; with force, an outcome
of `true` leaves the bucket nonexistent — it holds zero objects and is gone. -/
theorem c4_delete_bucket_force_semantics (s : GCSState) (bn : String)
    (b : Bucket) (failAt : Option Nat) (h : findBucket s bn = some b) :
    (b.objects ≠ [] →
      delete_bucket s bn false failAt = (s, .error (GCSError.conflict bn)))
    ∧ ((delete_bucket s bn true failAt).2 = .ok true →
      findBucket (delete_bucket s bn true failAt).1 bn = none) := by
  constructor
  · intro hne
    have he : b.objects.isEmpty = false := by simpa using hne
    simp [delete_bucket, h, he]
  · intro hok
    rcases hr : runDeleteLoop b (b.listBlobs "" false) 0 failAt with ⟨b2, oe⟩
    cases oe with
    | some e => simp [delete_bucket, h, hr] at hok
    | none =>
      by_cases he : b2.objects.isEmpty = true
      · simp [delete_bucket, h, hr, he, findBucket_removeBucket]
      · simp [delete_bucket, h, hr, he] at hok

/-- C4 witness: on a bucket holding one object, the unforced deletion fails
with a conflict leaving the state intact, and the forced (fault-free)
deletion removes the bucket. -/
theorem c4_delete_bucket_force_semantics_witness :
    delete_bucket [⟨"bkt", "US", "STANDARD", false,
        [⟨"a", 1, "x", "text/plain", true⟩]⟩] "bkt" false none
      = ([⟨"bkt", "US", "STANDARD", false, [⟨"a", 1, "x", "text/plain", true⟩]⟩],
          .error (GCSError.conflict "bkt"))
    ∧ findBucket (delete_bucket [⟨"bkt", "US", "STANDARD", false,
        [⟨"a", 1, "x", "text/plain", true⟩]⟩] "bkt" true none).1 "bkt" = none :=
  ⟨(c4_delete_bucket_force_semantics
      [⟨"bkt", "US", "STANDARD", false, [⟨"a", 1, "x", "text/plain", true⟩]⟩]
      "bkt" ⟨"bkt", "US", "STANDARD", false, [⟨"a", 1, "x", "text/plain", true⟩]⟩
      none rfl).1 (by decide),
   (c4_delete_bucket_force_semantics
      [⟨"bkt", "US", "STANDARD", false, [⟨"a", 1, "x", "text/plain", true⟩]⟩]
      "bkt" ⟨"bkt", "US", "STANDARD", false, [⟨"a", 1, "x", "text/plain", true⟩]⟩
      none rfl).2 rfl⟩

/-- C8: `upload_object` overwrites whatever is stored at the path with no
conflict detection (it succeeds for every state of the target path,
last-write-wins, and the new content is what reads back), returns the record
for the new object, and raises only when the bucket is not found. -/
theorem c8_upload_overwrites (s : GCSState) (bn p c t : String) :
    (∀ b, findBucket s bn = some b →
      upload_object s bn p c t
        = .ok (updateBucket s bn (b.uploadVersion p c t), ⟨p, c.utf8ByteSize, t⟩)
      ∧ read_object (updateBucket s bn (b.uploadVersion p c t)) bn p = .ok c)
    ∧ (findBucket s bn = none →
      upload_object s bn p c t = .error (GCSError.notFound bn)) := by
  constructor
  · intro b h
    exact upload_object_spec p c t h
  · intro h
    simp [upload_object, GCSClient.upload_object, h]

/-- C8 witness: overwriting the existing object at `b/p` succeeds with a new
generation and the new content reads back, while uploading into a missing
bucket fails with the provider's not-found failure. -/
theorem c8_upload_overwrites_witness :
    (upload_object [⟨"b", "US", "STANDARD", false,
        [⟨"p", 1, "old", "text/plain", true⟩]⟩] "b" "p" "new" "text/plain"
      = .ok ([⟨"b", "US", "STANDARD", false,
          [⟨"p", 2, "new", "text/plain", true⟩]⟩], ⟨"p", 3, "text/plain"⟩)
      ∧ read_object [⟨"b", "US", "STANDARD", false,
          [⟨"p", 2, "new", "text/plain", true⟩]⟩] "b" "p" = .ok "new")
    ∧ upload_object ([] : GCSState) "b" "p" "new" "text/plain"
      = .error (GCSError.notFound "b") :=
  ⟨(c8_upload_overwrites [⟨"b", "US", "STANDARD", false,
      [⟨"p", 1, "old", "text/plain", true⟩]⟩] "b" "p" "new" "text/plain").1
      ⟨"b", "US", "STANDARD", false, [⟨"p", 1, "old", "text/plain", true⟩]⟩ rfl,
   (c8_upload_overwrites ([] : GCSState) "b" "p" "new" "text/plain").2 rfl⟩

/-- C6: a successful `copy_object` leaves the source object's readable
content unchanged — `read_object` on the source agrees before and after —
and every location other than the destination reads the same as before (only
the destination is created or overwritten). -/
theorem c6_copy_preserves_source (s s2 : GCSState)
    (sb so db dp : String) (rec : ObjectRecord)
    (h : copy_object s sb so db dp = .ok (s2, rec)) :
    read_object s2 sb so = read_object s sb so
    ∧ ∀ b q, b ≠ db ∨ q ≠ dp → read_object s2 b q = read_object s b q := by
  cases hsb : findBucket s sb with
  | none => simp [copy_object, GCSClient.copy_object, hsb] at h
  | some sbkt =>
  cases hsrc : sbkt.liveVersion so with
  | none => simp [copy_object, GCSClient.copy_object, hsb, hsrc] at h
  | some src =>
  cases hdb : findBucket s db with
  | none => simp [copy_object, GCSClient.copy_object, hsb, hsrc, hdb] at h
  | some dbkt =>
  simp only [copy_object, GCSClient.copy_object, hsb, hsrc, hdb,
    Except.ok.injEq, Prod.mk.injEq] at h
  obtain ⟨h1, _⟩ := h
  subst h1
  have hdbname : (dbkt.uploadVersion dp src.content src.contentType).name = db := by
    rw [uploadVersion_name]; exact findBucket_name hdb
  have hframe : ∀ b q, b ≠ db ∨ q ≠ dp →
      read_object (updateBucket s db (dbkt.uploadVersion dp src.content src.contentType)) b q
        = read_object s b q := by
    intro b q hbq
    rcases hbq with hbne | hqne
    · simp only [read_object, GCSClient.download_as_text,
        findBucket_updateBucket_ne hdbname hbne]
    · by_cases hbd : b = db
      · subst hbd
        simp only [read_object, GCSClient.download_as_text,
          findBucket_updateBucket_self hdb hdbname, hdb,
          liveVersion_uploadVersion_ne dbkt src.content src.contentType hqne]
      · simp only [read_object, GCSClient.download_as_text,
          findBucket_updateBucket_ne hdbname hbd]
  refine ⟨?_, hframe⟩
  by_cases hbd : sb = db
  · subst hbd
    have hbb : sbkt = dbkt := Option.some.inj (hsb.symm.trans hdb)
    subst hbb
    by_cases hqd : so = dp
    · subst hqd
      simp only [read_object, GCSClient.download_as_text,
        findBucket_updateBucket_self hdb hdbname,
        liveVersion_uploadVersion_self, hdb, hsrc]
    · exact hframe sb so (Or.inr hqd)
  · exact hframe sb so (Or.inl hbd)

/-- C6 witness: after copying `sb/so` to `db/dp`, reading the source returns
the same content as before, and an unrelated path in the source bucket also
reads the same. -/
theorem c6_copy_preserves_source_witness :
    read_object [⟨"sb", "US", "STANDARD", false,
        [⟨"so", 1, "data", "text/plain", true⟩]⟩,
      ⟨"db", "US", "STANDARD", false,
        [⟨"dp", 1, "data", "text/plain", true⟩]⟩] "sb" "so"
      = read_object [⟨"sb", "US", "STANDARD", false,
          [⟨"so", 1, "data", "text/plain", true⟩]⟩,
        ⟨"db", "US", "STANDARD", false, []⟩] "sb" "so"
    ∧ read_object [⟨"sb", "US", "STANDARD", false,
        [⟨"so", 1, "data", "text/plain", true⟩]⟩,
      ⟨"db", "US", "STANDARD", false,
        [⟨"dp", 1, "data", "text/plain", true⟩]⟩] "sb" "zz"
      = read_object [⟨"sb", "US", "STANDARD", false,
          [⟨"so", 1, "data", "text/plain", true⟩]⟩,
        ⟨"db", "US", "STANDARD", false, []⟩] "sb" "zz" :=
  ⟨(c6_copy_preserves_source
      [⟨"sb", "US", "STANDARD", false, [⟨"so", 1, "data", "text/plain", true⟩]⟩,
       ⟨"db", "US", "STANDARD", false, []⟩]
      [⟨"sb", "US", "STANDARD", false, [⟨"so", 1, "data", "text/plain", true⟩]⟩,
       ⟨"db", "US", "STANDARD", false, [⟨"dp", 1, "data", "text/plain", true⟩]⟩]
      "sb" "so" "db" "dp" ⟨"dp", 4, "text/plain"⟩ rfl).1,
   (c6_copy_preserves_source
      [⟨"sb", "US", "STANDARD", false, [⟨"so", 1, "data", "text/plain", true⟩]⟩,
       ⟨"db", "US", "STANDARD", false, []⟩]
      [⟨"sb", "US", "STANDARD", false, [⟨"so", 1, "data", "text/plain", true⟩]⟩,
       ⟨"db", "US", "STANDARD", false, [⟨"dp", 1, "data", "text/plain", true⟩]⟩]
      "sb" "so" "db" "dp" ⟨"dp", 4, "text/plain"⟩ rfl).2 "sb" "zz"
      (Or.inl (by decide))⟩
